import Mathlib

/-!
Shallow embedding of the requisition-tracker's Ledger (`database.py`), its
Queue Projection rendering (`cogs/requisition.py`), and the caller-side
request-submission pipeline, together with theorems settling the frozen
claims about the natural-language specification.

The store is modelled as explicit lists of rows; every SQL `UPDATE ... WHERE`
becomes a single map over the row list guarded by the WHERE predicate (the
"rowcount" is the number of rows matching the predicate), mirroring the fact
that each transition in the source is one conditional SQL statement.
Timestamps are naturals; SQL `NULL` is `Option.none` (so a comparison against
`NULL` is false, as in SQL three-valued logic); statuses are the literal
strings stored in the `status` TEXT column.
-/

namespace Requisition

/-- A row of the `requests` table (`database.py`, `_create_tables`). -/
structure Request where
  id : Nat
  requester_id : Nat
  requester_name : String
  character_name : String
  category : String
  item_name : String
  quantity : Int
  plastanium_cost : Int
  spice_cost : Int
  status : String
  crafter_id : Option Nat
  crafter_name : Option String
  created_at : Nat
  claimed_at : Option Nat
  completed_at : Option Nat
deriving Repr, DecidableEq

/-- A row of the `guild_settings` table. -/
structure GuildSettings where
  guild_id : Nat
  crafter_role_id : Option Nat
  announcement_channel_id : Option Nat
  queue_channel_id : Option Nat
  queue_message_id : Option Nat
deriving Repr, DecidableEq

/-- A row of the `user_profiles` table. -/
structure UserProfile where
  user_id : Nat
  character_name : String
deriving Repr, DecidableEq

/-- The whole durable store: the three tables plus the AUTOINCREMENT counter
for `requests.id`. -/
structure DB where
  requests : List Request
  next_id : Nat
  guild_settings : List GuildSettings
  user_profiles : List UserProfile
deriving Repr, DecidableEq

/-- The store right after `_create_tables` on a fresh file: all tables empty,
AUTOINCREMENT starting at 1. -/
def emptyDB : DB :=
  { requests := [], next_id := 1, guild_settings := [], user_profiles := [] }

/-- `UPDATE ... SET ... WHERE p`: apply `f` to every row matching `p`. -/
def updWhere (p : Request → Bool) (f : Request → Request) (l : List Request) :
    List Request :=
  l.map (fun r => if p r then f r else r)

/-- `cursor.rowcount` of an `UPDATE ... WHERE p`: number of matching rows. -/
def countWhere (p : Request → Bool) (l : List Request) : Nat :=
  (l.filter p).length

/-- `create_request` (`database.py` lines 97-121): multiplies the per-unit
costs by the quantity, inserts a fresh `pending` row, returns `lastrowid`.
No validation of any argument is performed. -/
def create_request (db : DB) (requester_id : Nat)
    (requester_name character_name category item_name : String)
    (quantity plastanium_cost spice_cost : Int) (now : Nat) : Nat × DB :=
  let total_plastanium := plastanium_cost * quantity
  let total_spice := spice_cost * quantity
  let row : Request :=
    { id := db.next_id
      requester_id := requester_id
      requester_name := requester_name
      character_name := character_name
      category := category
      item_name := item_name
      quantity := quantity
      plastanium_cost := total_plastanium
      spice_cost := total_spice
      status := "pending"
      crafter_id := none
      crafter_name := none
      created_at := now
      claimed_at := none
      completed_at := none }
  (db.next_id,
    { db with requests := db.requests ++ [row], next_id := db.next_id + 1 })

/-- `get_request`: `SELECT * FROM requests WHERE id = ?`, first row or None. -/
def get_request (db : DB) (request_id : Nat) : Option Request :=
  (db.requests.filter (fun r => r.id == request_id)).head?

/-- `cancel_request` (lines 181-192): sets `cancelled` where the id matches,
the requester owns the row and the status is `pending`; returns rowcount>0. -/
def cancel_request (db : DB) (request_id user_id : Nat) : Bool × DB :=
  let p := fun (r : Request) =>
    r.id == request_id && r.requester_id == user_id && r.status == "pending"
  (decide (0 < countWhere p db.requests),
    { db with
        requests := updWhere p (fun r => { r with status := "cancelled" }) db.requests })

/-- `clear_pending_requests` (lines 194-204): sets `cancelled` on every
`pending` row, no ownership guard; returns the rowcount. -/
def clear_pending_requests (db : DB) : Nat × DB :=
  let p := fun (r : Request) => r.status == "pending"
  (countWhere p db.requests,
    { db with
        requests := updWhere p (fun r => { r with status := "cancelled" }) db.requests })

/-- `update_request` (lines 206-229): recomputes frozen costs and rewrites
the item fields where the id matches, the requester owns the row and the
status is `pending`; returns rowcount>0. -/
def update_request (db : DB) (request_id user_id : Nat)
    (category item_name : String) (quantity plastanium_cost spice_cost : Int) :
    Bool × DB :=
  let total_plastanium := plastanium_cost * quantity
  let total_spice := spice_cost * quantity
  let p := fun (r : Request) =>
    r.id == request_id && r.requester_id == user_id && r.status == "pending"
  let f := fun (r : Request) =>
    { r with category := category, item_name := item_name, quantity := quantity,
             plastanium_cost := total_plastanium, spice_cost := total_spice }
  (decide (0 < countWhere p db.requests),
    { db with requests := updWhere p f db.requests })

/-- `claim_request` (lines 231-242): one conditional UPDATE that sets
`claimed`, the crafter fields and `claimed_at` where the id matches and the
status is `pending`; returns rowcount>0. -/
def claim_request (db : DB) (request_id crafter_id : Nat)
    (crafter_name : String) (now : Nat) : Bool × DB :=
  let p := fun (r : Request) => r.id == request_id && r.status == "pending"
  let f := fun (r : Request) =>
    { r with status := "claimed", crafter_id := some crafter_id,
             crafter_name := some crafter_name, claimed_at := some now }
  (decide (0 < countWhere p db.requests),
    { db with requests := updWhere p f db.requests })

/-- `unclaim_request` (lines 244-255): one conditional UPDATE that restores
`pending` and clears the crafter fields and `claimed_at` where the id
matches, the caller holds the claim and the status is `claimed`. -/
def unclaim_request (db : DB) (request_id crafter_id : Nat) : Bool × DB :=
  let p := fun (r : Request) =>
    r.id == request_id && r.crafter_id == some crafter_id && r.status == "claimed"
  let f := fun (r : Request) =>
    { r with status := "pending", crafter_id := none, crafter_name := none,
             claimed_at := none }
  (decide (0 < countWhere p db.requests),
    { db with requests := updWhere p f db.requests })

/-- `complete_request` (lines 257-272): reads the row first; fails (None,
no change) unless it exists, is held by the caller and is `claimed`; then
updates that id to `completed` with `completed_at` set, and returns the row
AS READ BEFORE the update. -/
def complete_request (db : DB) (request_id crafter_id : Nat) (now : Nat) :
    Option Request × DB :=
  match get_request db request_id with
  | none => (none, db)
  | some r =>
    if r.crafter_id != some crafter_id || r.status != "claimed" then (none, db)
    else
      (some r,
        { db with
            requests := updWhere (fun q => q.id == request_id)
              (fun q => { q with status := "completed", completed_at := some now })
              db.requests })

/-- Active means `status IN ('pending','claimed')`. -/
def isActive (r : Request) : Bool :=
  r.status == "pending" || r.status == "claimed"

/-- Comparison used by `ORDER BY created_at ASC`. -/
def byCreatedAt (a b : Request) : Prop := a.created_at ≤ b.created_at

instance : DecidableRel byCreatedAt := fun a b => Nat.decLe a.created_at b.created_at

instance : IsTotal Request byCreatedAt := ⟨fun a b => Nat.le_total a.created_at b.created_at⟩

instance : IsTrans Request byCreatedAt := ⟨fun _ _ _ h h' => Nat.le_trans h h'⟩

/-- `get_active_requests` (lines 156-166): the active rows ordered by
ascending `created_at`. -/
def get_active_requests (db : DB) : List Request :=
  List.insertionSort byCreatedAt (db.requests.filter isActive)

/-- The WHERE clause shared by the completed-window queries (`database.py`
lines 356-385, 555-589): `status='completed'`, and when a start bound is
present `completed_at >= start` (with `completed_at <= end` when the end
bound is also present).  An end bound without a start bound is ignored, as
in the source's if/elif/else.  A NULL `completed_at` never matches a bound. -/
def completedFilter (start_date end_date : Option Nat) (r : Request) : Bool :=
  match start_date, end_date with
  | some s, some e =>
    r.status == "completed" &&
      (match r.completed_at with
       | some t => decide (s ≤ t) && decide (t ≤ e)
       | none => false)
  | some s, none =>
    r.status == "completed" &&
      (match r.completed_at with
       | some t => decide (s ≤ t)
       | none => false)
  | none, _ => r.status == "completed"

/-- Comparison used by `ORDER BY completed_at DESC` (NULL sorts last). -/
def byCompletedAtDesc (a b : Request) : Prop :=
  b.completed_at.getD 0 ≤ a.completed_at.getD 0

instance : DecidableRel byCompletedAtDesc :=
  fun a b => Nat.decLe (b.completed_at.getD 0) (a.completed_at.getD 0)

/-- `get_completed_requests` (lines 351-385). -/
def get_completed_requests (db : DB) (start_date end_date : Option Nat) :
    List Request :=
  List.insertionSort byCompletedAtDesc
    (db.requests.filter (completedFilter start_date end_date))

/-- `get_material_totals` (lines 549-589): `SUM(plastanium_cost)` and
`SUM(spice_cost)` over the same filter, with NULL sums coalesced to 0. -/
def get_material_totals (db : DB) (start_date end_date : Option Nat) :
    Int × Int :=
  let rows := db.requests.filter (completedFilter start_date end_date)
  ((rows.map (fun r => r.plastanium_cost)).sum,
   (rows.map (fun r => r.spice_cost)).sum)

/-- `get_guild_settings`: first row with the guild id, or None. -/
def get_guild_settings (db : DB) (guild_id : Nat) : Option GuildSettings :=
  (db.guild_settings.filter (fun g => g.guild_id == guild_id)).head?

/-- Shared shape of the three `INSERT ... ON CONFLICT(guild_id) DO UPDATE`
statements: update the matching row if one exists, otherwise insert the row
produced by `mk`. -/
def upsertGuild (db : DB) (guild_id : Nat) (f : GuildSettings → GuildSettings)
    (mk : GuildSettings) : DB :=
  if 0 < (db.guild_settings.filter (fun g => g.guild_id == guild_id)).length then
    { db with
        guild_settings :=
          db.guild_settings.map (fun g => if g.guild_id == guild_id then f g else g) }
  else
    { db with guild_settings := db.guild_settings ++ [mk] }

/-- `set_crafter_role` (lines 283-293): upsert of `crafter_role_id`. -/
def set_crafter_role (db : DB) (guild_id role_id : Nat) : DB :=
  upsertGuild db guild_id (fun g => { g with crafter_role_id := some role_id })
    { guild_id := guild_id, crafter_role_id := some role_id,
      announcement_channel_id := none, queue_channel_id := none,
      queue_message_id := none }

/-- `set_announcement_channel` (lines 295-305): upsert. -/
def set_announcement_channel (db : DB) (guild_id channel_id : Nat) : DB :=
  upsertGuild db guild_id
    (fun g => { g with announcement_channel_id := some channel_id })
    { guild_id := guild_id, crafter_role_id := none,
      announcement_channel_id := some channel_id, queue_channel_id := none,
      queue_message_id := none }

/-- `set_queue_channel` (lines 307-317): upsert. -/
def set_queue_channel (db : DB) (guild_id channel_id : Nat) : DB :=
  upsertGuild db guild_id (fun g => { g with queue_channel_id := some channel_id })
    { guild_id := guild_id, crafter_role_id := none,
      announcement_channel_id := none, queue_channel_id := some channel_id,
      queue_message_id := none }

/-- `set_queue_message_id` (lines 319-327): a plain
`UPDATE guild_settings SET queue_message_id = ? WHERE guild_id = ?` —
NOT an upsert; it touches only an already-existing row. -/
def set_queue_message_id (db : DB) (guild_id message_id : Nat) : DB :=
  { db with
      guild_settings :=
        db.guild_settings.map (fun g =>
          if g.guild_id == guild_id then { g with queue_message_id := some message_id }
          else g) }

/-- `get_character_name`: the saved profile name for a user, or None. -/
def get_character_name (db : DB) (user_id : Nat) : Option String :=
  ((db.user_profiles.filter (fun u => u.user_id == user_id)).head?).map
    (fun u => u.character_name)

/-- `set_character_name` (lines 338-348):
`INSERT ... ON CONFLICT(user_id) DO UPDATE` upsert of the profile name. -/
def set_character_name (db : DB) (user_id : Nat) (character_name : String) : DB :=
  if 0 < (db.user_profiles.filter (fun u => u.user_id == user_id)).length then
    { db with
        user_profiles :=
          db.user_profiles.map (fun u =>
            if u.user_id == user_id then { u with character_name := character_name }
            else u) }
  else
    { db with
        user_profiles :=
          db.user_profiles ++ [{ user_id := user_id, character_name := character_name }] }

/-- The data the Queue Projection renders (`update_queue_message`,
`cogs/requisition.py` lines 48-73): the fields shown, the footer totals and
whether the "Showing 15 of N" truncation note replaces the description. -/
structure QueueRender where
  displayed : List Request
  total_plastanium : Int
  total_spice : Int
  truncated_note : Bool
deriving Repr, DecidableEq

/-- The rendering loop of `update_queue_message`: it iterates over
`requests[:15]`, accumulating BOTH the displayed entries and the footer
material totals from those 15 rows only; the truncation note appears when
more than 15 active requests exist. -/
def renderQueue (requests : List Request) : QueueRender :=
  { displayed := requests.take 15
    total_plastanium :=
      (requests.take 15).foldl (fun acc r => acc + r.plastanium_cost) 0
    total_spice :=
      (requests.take 15).foldl (fun acc r => acc + r.spice_cost) 0
    truncated_note := decide (15 < requests.length) }

/-- `RequestModalQuick.on_submit` (`cogs/requisition.py` lines 504-535),
stripped of chat-platform effects: the caller-side validation rejects a
quantity outside 1..99 before anything touches the store; otherwise it
passes the per-unit costs to `create_request`. -/
def request_modal_submit (db : DB) (user_id : Nat)
    (user_name character_name category item_name : String)
    (quantity plastanium spice : Int) (now : Nat) : Option Nat × DB :=
  if quantity < 1 || 99 < quantity then (none, db)
  else
    let res := create_request db user_id user_name character_name category
      item_name quantity plastanium spice now
    (some res.1, res.2)

/-- `RequestModal.on_submit` (first-time users, lines 399-433), stripped of
chat-platform effects: validates the quantity, then saves the character name
via `set_character_name`, then creates the request. -/
def request_modal_first_submit (db : DB) (user_id : Nat)
    (user_name character_name category item_name : String)
    (quantity plastanium spice : Int) (now : Nat) : Option Nat × DB :=
  if quantity < 1 || 99 < quantity then (none, db)
  else
    let db1 := set_character_name db user_id character_name
    let res := create_request db1 user_id user_name character_name category
      item_name quantity plastanium spice now
    (some res.1, res.2)

/-- One Ledger mutation on the `requests` table, for reasoning about
reachable states. -/
inductive Op where
  | create (requester_id : Nat)
      (requester_name character_name category item_name : String)
      (quantity plastanium_cost spice_cost : Int) (now : Nat)
  | cancel (request_id user_id : Nat)
  | clearPending
  | update (request_id user_id : Nat) (category item_name : String)
      (quantity plastanium_cost spice_cost : Int)
  | claim (request_id crafter_id : Nat) (crafter_name : String) (now : Nat)
  | unclaim (request_id crafter_id : Nat)
  | complete (request_id crafter_id : Nat) (now : Nat)
deriving Repr, DecidableEq

/-- Apply one mutation, keeping the resulting store. -/
def applyOp (db : DB) : Op → DB
  | .create rid rn cn cat it q pc sc t => (create_request db rid rn cn cat it q pc sc t).2
  | .cancel i u => (cancel_request db i u).2
  | .clearPending => (clear_pending_requests db).2
  | .update i u cat it q pc sc => (update_request db i u cat it q pc sc).2
  | .claim i c n t => (claim_request db i c n t).2
  | .unclaim i c => (unclaim_request db i c).2
  | .complete i c t => (complete_request db i c t).2

/-- Run a sequence of mutations from a given store. -/
def runFrom (db : DB) : List Op → DB
  | [] => db
  | op :: ops => runFrom (applyOp db op) ops

/-- Run a sequence of mutations from the empty store: the reachable states. -/
def run (ops : List Op) : DB := runFrom emptyDB ops

/-- The per-row part of the lifecycle invariant the store actually
maintains: the crafter id and claim time are both set exactly on `claimed`
and `completed` rows (they are retained after completion for reporting). -/
def statusInv (r : Request) : Prop :=
  (r.crafter_id.isSome ∧ r.claimed_at.isSome) ↔
    (r.status = "claimed" ∨ r.status = "completed")

instance (r : Request) : Decidable (statusInv r) := by
  unfold statusInv; infer_instance

/-- Store-wide invariant: ids are unique, below the AUTOINCREMENT counter,
and every row satisfies `statusInv`. -/
def Inv (db : DB) : Prop :=
  (db.requests.map Request.id).Nodup ∧
    ∀ r ∈ db.requests, r.id < db.next_id ∧ statusInv r

instance (db : DB) : Decidable (Inv db) := by
  unfold Inv; infer_instance

/-! ### Helper lemmas about the list-level SQL primitives -/

theorem countWhere_pos_iff (p : Request → Bool) (l : List Request) :
    0 < countWhere p l ↔ ∃ r ∈ l, p r = true := by
  simp [countWhere, List.length_pos_iff_exists_mem, List.mem_filter, and_comm]

theorem countWhere_eq_zero_iff (p : Request → Bool) (l : List Request) :
    countWhere p l = 0 ↔ ∀ r ∈ l, p r = false := by
  unfold countWhere
  rw [List.length_eq_zero, List.filter_eq_nil_iff]
  simp

theorem updWhere_of_none {p : Request → Bool} {f : Request → Request}
    {l : List Request} (h : ∀ r ∈ l, p r = false) : updWhere p f l = l := by
  induction l with
  | nil => rfl
  | cons a t ih =>
    have ha := h a (by simp)
    simp only [updWhere, List.map_cons, ha, Bool.false_eq_true, if_false]
    exact congrArg _ (ih fun r hr => h r (by simp [hr]))

theorem mem_updWhere {p : Request → Bool} {f : Request → Request}
    {l : List Request} {r' : Request} :
    r' ∈ updWhere p f l ↔ ∃ r ∈ l, r' = if p r then f r else r := by
  unfold updWhere
  rw [List.mem_map]
  constructor
  · rintro ⟨r, hr, h⟩; exact ⟨r, hr, h.symm⟩
  · rintro ⟨r, hr, h⟩; exact ⟨r, hr, h.symm⟩

theorem mem_updWhere_of_mem {p : Request → Bool} {f : Request → Request}
    {l : List Request} {r : Request} (hr : r ∈ l) :
    (if p r then f r else r) ∈ updWhere p f l :=
  mem_updWhere.mpr ⟨r, hr, rfl⟩

theorem updWhere_map_id {p : Request → Bool} {f : Request → Request}
    (hf : ∀ r, (f r).id = r.id) (l : List Request) :
    (updWhere p f l).map Request.id = l.map Request.id := by
  simp only [updWhere, List.map_map]
  exact List.map_congr_left fun r _ => by by_cases h : p r <;> simp [h, hf]

/-- Rows with equal ids coincide when the id column is duplicate-free. -/
theorem uniqueRow {l : List Request} (hnodup : (l.map Request.id).Nodup)
    {r q : Request} (hr : r ∈ l) (hq : q ∈ l) (hid : r.id = q.id) : r = q :=
  List.inj_on_of_nodup_map hnodup hr hq hid

theorem get_request_eq_some {db : DB} {i : Nat} {r : Request}
    (h : get_request db i = some r) : r ∈ db.requests ∧ r.id = i := by
  unfold get_request at h
  have hmem : r ∈ db.requests.filter (fun q => q.id == i) := by
    cases hl : db.requests.filter (fun q => q.id == i) with
    | nil => rw [hl] at h; simp at h
    | cons x xs => rw [hl] at h; simp at h; simp [hl, h]
  have := List.mem_filter.mp hmem
  exact ⟨this.1, by simpa using this.2⟩

theorem get_request_isSome {db : DB} {i : Nat} {r : Request}
    (hr : r ∈ db.requests) (hid : r.id = i) : (get_request db i).isSome := by
  unfold get_request
  cases hl : db.requests.filter (fun q => q.id == i) with
  | nil =>
    exfalso
    have : r ∈ db.requests.filter (fun q => q.id == i) :=
      List.mem_filter.mpr ⟨hr, by simp [hid]⟩
    rw [hl] at this
    simp at this
  | cons x xs => simp

theorem foldl_add_eq_sum {α : Type} (g : α → Int) :
    ∀ (l : List α) (a : Int),
      l.foldl (fun acc r => acc + g r) a = a + (l.map g).sum
  | [], a => by simp
  | x :: t, a => by
    simp [List.foldl_cons, foldl_add_eq_sum g t (a + g x), add_assoc]

/-- Keyed first-match read after a keyed conditional map: the first matching
row is exactly the updated image of the previous first matching row. -/
theorem head_filter_map_key {α : Type} (key : α → Nat) (k : Nat) (f : α → α)
    (hf : ∀ a, key (f a) = key a) :
    ∀ l : List α,
      ((l.map (fun a => if key a == k then f a else a)).filter
          (fun a => key a == k)).head? =
        ((l.filter (fun a => key a == k)).head?).map f
  | [] => rfl
  | a :: t => by
    by_cases h : key a = k
    · simp [List.filter_cons, h, hf]
    · have hb : (key a == k) = false := by simp [h]
      simp only [List.map_cons, hb, Bool.false_eq_true, if_false, List.filter_cons]
      exact head_filter_map_key key k f hf t

theorem map_if_key_of_none {α : Type} (key : α → Nat) (k : Nat) (f : α → α) :
    ∀ {l : List α}, (∀ a ∈ l, (key a == k) = false) →
      l.map (fun a => if key a == k then f a else a) = l
  | [], _ => rfl
  | a :: t, h => by
    have ha := h a (List.mem_cons_self a t)
    simp only [List.map_cons, ha, Bool.false_eq_true, if_false]
    exact congrArg _ (map_if_key_of_none key k f fun b hb =>
      h b (List.mem_cons_of_mem _ hb))

/-! ### Preservation of the store invariant -/

theorem inv_updWhere {db : DB} (h : Inv db) (p : Request → Bool)
    (f : Request → Request) (hfid : ∀ r, (f r).id = r.id)
    (hfinv : ∀ r ∈ db.requests, p r = true → statusInv r → statusInv (f r)) :
    Inv { db with requests := updWhere p f db.requests } := by
  obtain ⟨hnodup, hrows⟩ := h
  refine ⟨?_, ?_⟩
  · show ((updWhere p f db.requests).map Request.id).Nodup
    rw [updWhere_map_id hfid]
    exact hnodup
  · intro r' hr'
    obtain ⟨r, hr, rfl⟩ := mem_updWhere.mp hr'
    by_cases hp : p r = true
    · simp only [hp, if_true]
      exact ⟨by rw [hfid]; exact (hrows r hr).1, hfinv r hr hp (hrows r hr).2⟩
    · simp only [hp, if_false]
      exact hrows r hr

theorem inv_applyOp {db : DB} (op : Op) (h : Inv db) : Inv (applyOp db op) := by
  obtain ⟨hnodup, hrows⟩ := h
  cases op with
  | create rid rn cn cat it q pc sc t =>
    refine ⟨?_, ?_⟩
    · show ((db.requests ++ [_]).map Request.id).Nodup
      rw [List.map_append, List.nodup_append]
      refine ⟨hnodup, by simp, ?_⟩
      intro a ha hb
      obtain ⟨r, hr, rfl⟩ := List.mem_map.mp ha
      simp only [List.map_cons, List.map_nil, List.mem_singleton] at hb
      exact absurd hb (Nat.ne_of_lt (hrows r hr).1)
    · intro r' hr'
      rcases List.mem_append.mp hr' with hl | hnew
      · exact ⟨Nat.lt_succ_of_lt (hrows r' hl).1, (hrows r' hl).2⟩
      · simp only [List.mem_singleton] at hnew
        subst hnew
        exact ⟨Nat.lt_succ_self _, by simp [statusInv]⟩
  | cancel i u =>
    refine inv_updWhere ⟨hnodup, hrows⟩ _ _ (fun r => rfl) ?_
    intro r _ hp hinv
    have hst : r.status = "pending" := by
      simp only [Bool.and_eq_true, beq_iff_eq] at hp
      exact hp.2
    unfold statusInv at *
    simp only [hst] at hinv
    simp only [show ¬("pending" = "claimed") from by decide,
      show ¬("pending" = "completed") from by decide, or_self, iff_false] at hinv
    simp [hinv]
  | clearPending =>
    refine inv_updWhere ⟨hnodup, hrows⟩ _ _ (fun r => rfl) ?_
    intro r _ hp hinv
    have hst : r.status = "pending" := by simpa using hp
    unfold statusInv at *
    simp only [hst] at hinv
    simp only [show ¬("pending" = "claimed") from by decide,
      show ¬("pending" = "completed") from by decide, or_self, iff_false] at hinv
    simp [hinv]
  | update i u cat it q pc sc =>
    refine inv_updWhere ⟨hnodup, hrows⟩ _ _ (fun r => rfl) ?_
    intro r _ _ hinv
    unfold statusInv at *
    simpa using hinv
  | claim i c n t =>
    refine inv_updWhere ⟨hnodup, hrows⟩ _ _ (fun r => rfl) ?_
    intro r _ _ _
    simp [statusInv]
  | unclaim i c =>
    refine inv_updWhere ⟨hnodup, hrows⟩ _ _ (fun r => rfl) ?_
    intro r _ _ _
    simp [statusInv]
  | complete i c t =>
    show Inv (complete_request db i c t).2
    unfold complete_request
    cases hg : get_request db i with
    | none => exact ⟨hnodup, hrows⟩
    | some r₀ =>
      by_cases hcond : (r₀.crafter_id != some c || r₀.status != "claimed") = true
      · simp only [hcond, if_true]
        exact ⟨hnodup, hrows⟩
      · simp only [hcond, if_false]
        simp only [Bool.or_eq_true, bne_iff_ne, ne_eq, not_or, not_not] at hcond
        obtain ⟨hmem₀, hid₀⟩ := get_request_eq_some hg
        refine inv_updWhere ⟨hnodup, hrows⟩ _ _ (fun r => rfl) ?_
        intro r hr hp hinv
        have hid : r.id = r₀.id := by
          rw [hid₀]
          simpa using hp
        have : r = r₀ := uniqueRow hnodup hr hmem₀ hid
        subst this
        unfold statusInv at *
        have hL : r.crafter_id.isSome = true ∧ r.claimed_at.isSome = true :=
          hinv.mpr (Or.inl hcond.2)
        simp [hL.1, hL.2]

theorem inv_runFrom {db : DB} (h : Inv db) :
    ∀ ops : List Op, Inv (runFrom db ops)
  | [] => h
  | op :: ops => inv_runFrom (inv_applyOp op h) ops

theorem inv_run (ops : List Op) : Inv (run ops) :=
  inv_runFrom (by decide) ops

theorem mem_updWhere_self {p : Request → Bool} {f : Request → Request}
    {l : List Request} {r : Request} (hr : r ∈ l) (hp : p r = false) :
    r ∈ updWhere p f l := by
  have := mem_updWhere_of_mem (p := p) (f := f) hr
  rwa [hp] at this
  -- the `if` reduces since the guard is false

theorem runFrom_append (db : DB) (a b : List Op) :
    runFrom db (a ++ b) = runFrom (runFrom db a) b := by
  induction a generalizing db with
  | nil => rfl
  | cons op t ih => simp only [List.cons_append, runFrom]; exact ih _

/-- A row already `completed` or `cancelled` is untouched by every single
Ledger mutation. -/
theorem terminal_applyOp {db : DB} (op : Op) (h : Inv db) {r : Request}
    (hr : r ∈ db.requests)
    (ht : r.status = "completed" ∨ r.status = "cancelled") :
    r ∈ (applyOp db op).requests := by
  have hnp : ¬r.status = "pending" := by
    rcases ht with h' | h' <;> rw [h'] <;> decide
  have hnc : ¬r.status = "claimed" := by
    rcases ht with h' | h' <;> rw [h'] <;> decide
  cases op with
  | create rid rn cn cat it q pc sc t =>
    exact List.mem_append.mpr (Or.inl hr)
  | cancel i u =>
    exact mem_updWhere_self hr (by simp [hnp])
  | clearPending =>
    exact mem_updWhere_self hr (by simp [hnp])
  | update i u cat it q pc sc =>
    exact mem_updWhere_self hr (by simp [hnp])
  | claim i c n t =>
    exact mem_updWhere_self hr (by simp [hnp])
  | unclaim i c =>
    exact mem_updWhere_self hr (by simp [hnc])
  | complete i c t =>
    show r ∈ (complete_request db i c t).2.requests
    unfold complete_request
    cases hg : get_request db i with
    | none => exact hr
    | some r₀ =>
      by_cases hcond : (r₀.crafter_id != some c || r₀.status != "claimed") = true
      · simp only [hcond, if_true]
        exact hr
      · simp only [hcond, if_false]
        simp only [Bool.or_eq_true, bne_iff_ne, ne_eq, not_or, not_not] at hcond
        obtain ⟨hmem₀, hid₀⟩ := get_request_eq_some hg
        refine mem_updWhere_self hr ?_
        by_cases hid : r.id = i
        · exfalso
          have : r = r₀ := uniqueRow h.1 hr hmem₀ (by rw [hid, hid₀])
          rw [this] at hnc
          exact hnc hcond.2
        · simp [hid]

/-- A terminal row survives, unchanged, every subsequent sequence of Ledger
mutations. -/
theorem terminal_runFrom {db : DB} (h : Inv db) {r : Request}
    (hr : r ∈ db.requests)
    (ht : r.status = "completed" ∨ r.status = "cancelled") :
    ∀ ops : List Op, r ∈ (runFrom db ops).requests
  | [] => hr
  | op :: ops =>
    terminal_runFrom (inv_applyOp op h) (terminal_applyOp op h hr ht) ht ops

/-! ### C1 — claim is a guarded compare-and-swap -/

theorem claim_request_fst (db : DB) (rid c : Nat) (n : String) (t : Nat) :
    (claim_request db rid c n t).1 = true ↔
      ∃ r ∈ db.requests, r.id = rid ∧ r.status = "pending" := by
  simp only [claim_request, decide_eq_true_eq, countWhere_pos_iff,
    Bool.and_eq_true, beq_iff_eq]

theorem claim_request_fail {db : DB} {rid c : Nat} {n : String} {t : Nat}
    (hf : (claim_request db rid c n t).1 = false) :
    (claim_request db rid c n t).2 = db := by
  simp only [claim_request, decide_eq_false_iff_not, Nat.not_lt,
    Nat.le_zero] at hf
  have hall := (countWhere_eq_zero_iff _ _).mp hf
  show { db with requests := updWhere _ _ db.requests } = db
  rw [updWhere_of_none hall]

/-- C1: `claim` succeeds exactly when a pending request with the id exists;
on success the guard and the writes (status, crafter fields, `claimed_at`)
happen in the single conditional update; on failure the store is unchanged;
and of two successive claims on the same pending id exactly the first
succeeds, the final row carrying the first caller's crafter fields. -/
theorem claim_request_spec (db : DB) (rid c₁ c₂ : Nat) (n₁ n₂ : String)
    (t₁ t₂ : Nat) (hnodup : (db.requests.map Request.id).Nodup) :
    ((claim_request db rid c₁ n₁ t₁).1 = true ↔
      ∃ r ∈ db.requests, r.id = rid ∧ r.status = "pending") ∧
    ((claim_request db rid c₁ n₁ t₁).1 = false →
      (claim_request db rid c₁ n₁ t₁).2 = db) ∧
    ((claim_request db rid c₁ n₁ t₁).1 = true →
      (∀ r' ∈ (claim_request db rid c₁ n₁ t₁).2.requests, r'.id = rid →
        r'.status = "claimed" ∧ r'.crafter_id = some c₁ ∧
          r'.crafter_name = some n₁ ∧ r'.claimed_at = some t₁) ∧
      (claim_request (claim_request db rid c₁ n₁ t₁).2 rid c₂ n₂ t₂).1 = false ∧
      (claim_request (claim_request db rid c₁ n₁ t₁).2 rid c₂ n₂ t₂).2 =
        (claim_request db rid c₁ n₁ t₁).2) := by
  refine ⟨claim_request_fst db rid c₁ n₁ t₁, fun hf => claim_request_fail hf, ?_⟩
  intro hs
  obtain ⟨r₀, hr₀, hid₀, hst₀⟩ := (claim_request_fst db rid c₁ n₁ t₁).mp hs
  have hpost : ∀ r' ∈ (claim_request db rid c₁ n₁ t₁).2.requests, r'.id = rid →
      r'.status = "claimed" ∧ r'.crafter_id = some c₁ ∧
        r'.crafter_name = some n₁ ∧ r'.claimed_at = some t₁ := by
    intro r' hr' hid'
    obtain ⟨q, hq, hq'⟩ := mem_updWhere.mp hr'
    by_cases hpq : (q.id == rid && q.status == "pending") = true
    · simp only [hpq, if_true] at hq'
      subst hq'
      exact ⟨rfl, rfl, rfl, rfl⟩
    · rw [Bool.not_eq_true] at hpq
      simp only [hpq, Bool.false_eq_true, if_false] at hq'
      subst hq'
      exfalso
      have hq0 : r' = r₀ := uniqueRow hnodup hq hr₀ (by rw [hid', hid₀])
      rw [hq0] at hpq
      simp [hid₀, hst₀] at hpq
  refine ⟨hpost, ?_, ?_⟩
  · rw [← Bool.not_eq_true, claim_request_fst]
    rintro ⟨r, hr, hid, hst⟩
    have := (hpost r hr hid).1
    rw [this] at hst
    exact absurd hst (by decide)
  · apply claim_request_fail
    rw [← Bool.not_eq_true, claim_request_fst]
    rintro ⟨r, hr, hid, hst⟩
    have := (hpost r hr hid).1
    rw [this] at hst
    exact absurd hst (by decide)

/-- A single pending request, used to instantiate the claim theorems. -/
def exPendReq : Request :=
  { id := 1, requester_id := 2, requester_name := "req", character_name := "Char",
    category := "Cat", item_name := "Item", quantity := 1, plastanium_cost := 10,
    spice_cost := 20, status := "pending", crafter_id := none, crafter_name := none,
    created_at := 5, claimed_at := none, completed_at := none }

def exPendDB : DB :=
  { requests := [exPendReq], next_id := 2, guild_settings := [], user_profiles := [] }

/-- C1 witness: on a concrete store holding one pending request, the first
claim succeeds and a second claim on the same id fails. -/
theorem claim_request_spec_witness :
    (claim_request exPendDB 1 7 "alice" 50).1 = true ∧
    (claim_request (claim_request exPendDB 1 7 "alice" 50).2 1 8 "bob" 60).1 = false := by
  have h := claim_request_spec exPendDB 1 7 8 "alice" "bob" 50 60 (by decide)
  have hs : (claim_request exPendDB 1 7 "alice" 50).1 = true :=
    h.1.mpr ⟨exPendReq, by decide, by decide, by decide⟩
  exact ⟨hs, (h.2.2 hs).2.1⟩

/-! ### C2 — complete: guard is right, but the returned row is stale -/

/-- A single claimed request (crafter 5), used for the complete theorems. -/
def exClaimedReq : Request :=
  { id := 1, requester_id := 2, requester_name := "req", character_name := "Char",
    category := "Cat", item_name := "Item", quantity := 1, plastanium_cost := 10,
    spice_cost := 20, status := "claimed", crafter_id := some 5,
    crafter_name := some "alice", created_at := 5, claimed_at := some 20,
    completed_at := none }

def exClaimedDB : DB :=
  { requests := [exClaimedReq], next_id := 2, guild_settings := [],
    user_profiles := [] }

/-- C2 counterexample: on a store with one claimed request, a successful
`complete` returns the row as read BEFORE the update — its status is still
`claimed` and its `completed_at` is still NULL — even though the stored row
is finalized.  This refutes "the returned row is the finalized row". -/
theorem complete_request_returns_stale_row :
    ((complete_request exClaimedDB 1 5 30).1).map
        (fun r => (r.status, r.completed_at)) = some ("claimed", none) ∧
    ∃ r ∈ (complete_request exClaimedDB 1 5 30).2.requests,
      r.status = "completed" ∧ r.completed_at = some 30 := by
  decide

/-- C2 amended: `complete(id, crafter_id)` returns a row exactly when the
request exists, is held by the caller and is `claimed`; on success the
STORED row transitions to `completed` with `completed_at` set, but the
RETURNED row is the pre-update snapshot (status `claimed`, `completed_at`
unset); on failure nothing changes and None is returned. -/
theorem complete_request_spec (db : DB) (rid cid t : Nat)
    (hnodup : (db.requests.map Request.id).Nodup) :
    ((complete_request db rid cid t).1.isSome ↔
      ∃ r ∈ db.requests, r.id = rid ∧ r.crafter_id = some cid ∧
        r.status = "claimed") ∧
    ((complete_request db rid cid t).1 = none →
      (complete_request db rid cid t).2 = db) ∧
    (∀ r₀, (complete_request db rid cid t).1 = some r₀ →
      r₀ ∈ db.requests ∧ r₀.id = rid ∧ r₀.crafter_id = some cid ∧
        r₀.status = "claimed" ∧
        ∀ r' ∈ (complete_request db rid cid t).2.requests, r'.id = rid →
          r' = { r₀ with status := "completed", completed_at := some t }) := by
  unfold complete_request
  cases hg : get_request db rid with
  | none =>
    refine ⟨?_, ?_, ?_⟩
    · simp only [Option.isSome_none, Bool.false_eq_true, false_iff]
      rintro ⟨r, hr, hid, -, -⟩
      have := get_request_isSome hr hid
      rw [hg] at this
      simp at this
    · intro _
      rfl
    · intro r₀ h
      simp at h
  | some r =>
    obtain ⟨hmem, hid⟩ := get_request_eq_some hg
    dsimp only
    by_cases hcond : (r.crafter_id != some cid || r.status != "claimed") = true
    · rw [if_pos hcond]
      refine ⟨?_, ?_, ?_⟩
      · constructor
        · intro h
          exact absurd h (by simp)
        · rintro ⟨q, hq, hqid, hqc, hqs⟩
          exfalso
          have hqr : q = r := uniqueRow hnodup hq hmem (by rw [hqid, hid])
          rw [hqr] at hqc hqs
          simp [hqc, hqs] at hcond
      · intro _
        rfl
      · intro r₀ h
        exact Option.noConfusion h
    · rw [if_neg hcond]
      simp only [Bool.or_eq_true, bne_iff_ne, ne_eq, not_or, not_not] at hcond
      refine ⟨?_, ?_, ?_⟩
      · constructor
        · intro _
          exact ⟨r, hmem, hid, hcond.1, hcond.2⟩
        · intro _
          rfl
      · intro h
        exact Option.noConfusion h
      · intro r₀ h
        have hr₀ : r₀ = r := (Option.some.inj h).symm
        subst hr₀
        refine ⟨hmem, hid, hcond.1, hcond.2, ?_⟩
        intro r' hr' hid'
        obtain ⟨q, hq, hq'⟩ := mem_updWhere.mp hr'
        by_cases hpq : (q.id == rid) = true
        · have hqr : q = r₀ := uniqueRow hnodup hq hmem (by
            rw [hid]
            simpa using hpq)
          subst hqr
          simp only [hpq, if_true] at hq'
          exact hq'
        · rw [Bool.not_eq_true] at hpq
          simp only [hpq, Bool.false_eq_true, if_false] at hq'
          subst hq'
          simp [hid'] at hpq

/-- C2 witness: the amended theorem applies to the concrete claimed store. -/
theorem complete_request_spec_witness :
    (complete_request exClaimedDB 1 5 30).1.isSome = true := by
  have h := complete_request_spec exClaimedDB 1 5 30 (by decide)
  exact h.1.mpr ⟨exClaimedReq, by decide, by decide, by decide, by decide⟩

/-! ### C3 — the reporting window is closed, not half-open -/

/-- One completed request with `completed_at = 10`, sitting exactly on a
window boundary. -/
def exCompReq : Request :=
  { id := 1, requester_id := 2, requester_name := "req", character_name := "Char",
    category := "Cat", item_name := "Item", quantity := 2, plastanium_cost := 6,
    spice_cost := 8, status := "completed", crafter_id := some 5,
    crafter_name := some "alice", created_at := 5, claimed_at := some 6,
    completed_at := some 10 }

def exCompDB : DB :=
  { requests := [exCompReq], next_id := 2, guild_settings := [],
    user_profiles := [] }

/-- C3 counterexample: a completed row whose `completed_at` equals the END
of the window IS returned by `get_completed_requests` and IS counted by
`get_material_totals` — the source compares with `completed_at <= end`, so
the interval is closed, refuting "a row with completed_at equal to end is
excluded". -/
theorem completed_window_end_inclusive :
    exCompReq ∈ get_completed_requests exCompDB (some 0) (some 10) ∧
    get_material_totals exCompDB (some 0) (some 10) = (6, 8) := by
  decide

/-- C3 amended: the windowed aggregates range over exactly the completed
rows whose `completed_at` lies in the CLOSED interval [start, end] — the
start boundary is included, and the end boundary is ALSO included — and the
material totals are the sums over precisely the rows of the windowed
query. -/
theorem completed_window_spec (db : DB) (s e : Nat) :
    (∀ r, r ∈ get_completed_requests db (some s) (some e) ↔
      r ∈ db.requests ∧ r.status = "completed" ∧
        ∃ t, r.completed_at = some t ∧ s ≤ t ∧ t ≤ e) ∧
    (get_material_totals db (some s) (some e)).1 =
      ((get_completed_requests db (some s) (some e)).map
        (fun r => r.plastanium_cost)).sum ∧
    (get_material_totals db (some s) (some e)).2 =
      ((get_completed_requests db (some s) (some e)).map
        (fun r => r.spice_cost)).sum := by
  have hperm : List.Perm (get_completed_requests db (some s) (some e))
      (db.requests.filter (completedFilter (some s) (some e))) :=
    List.perm_insertionSort _ _
  refine ⟨?_, ?_, ?_⟩
  · intro r
    rw [hperm.mem_iff, List.mem_filter]
    constructor
    · rintro ⟨hr, hf⟩
      simp only [completedFilter, Bool.and_eq_true, beq_iff_eq] at hf
      cases hc : r.completed_at with
      | none =>
        rw [hc] at hf
        simp at hf
      | some t =>
        rw [hc] at hf
        simp only [Bool.and_eq_true, decide_eq_true_eq] at hf
        exact ⟨hr, hf.1, t, rfl, hf.2.1, hf.2.2⟩
    · rintro ⟨hr, hst, t, hc, hs, he⟩
      exact ⟨hr, by simp [completedFilter, hst, hc, hs, he]⟩
  · exact ((hperm.map (fun r => r.plastanium_cost)).sum_eq).symm
  · exact ((hperm.map (fun r => r.spice_cost)).sum_eq).symm

/-! ### C4 — queue footer totals cover only the 15 displayed entries -/

/-- Sixteen unit-cost pending requests. -/
def mkActive (i : Nat) : Request :=
  { id := i + 1, requester_id := 1, requester_name := "u", character_name := "c",
    category := "Cat", item_name := "It", quantity := 1, plastanium_cost := 1,
    spice_cost := 1, status := "pending", crafter_id := none, crafter_name := none,
    created_at := i, claimed_at := none, completed_at := none }

def ex16DB : DB :=
  { requests := (List.range 16).map mkActive, next_id := 17, guild_settings := [],
    user_profiles := [] }

/-- C4 counterexample: with 16 active requests of unit material cost, the
rendered footer totals are 15 — the loop sums only `requests[:15]` — while
the sum over ALL active requests is 16.  This refutes "footer material
totals are the sums over ALL active requests". -/
theorem queue_footer_sums_displayed_only :
    (renderQueue (get_active_requests ex16DB)).total_plastanium = 15 ∧
    ((get_active_requests ex16DB).map (fun r => r.plastanium_cost)).sum = 16 ∧
    (renderQueue (get_active_requests ex16DB)).truncated_note = true := by
  decide

/-- C4 amended: the refresh renders at most the first 15 active entries in
oldest-first order and notes the truncated count when more than 15 exist,
but the footer material totals are the sums over exactly those displayed
(at most 15) entries, NOT over all active requests. -/
theorem queue_render_spec (db : DB) :
    List.Sorted byCreatedAt (get_active_requests db) ∧
    (∀ r, r ∈ get_active_requests db ↔
      r ∈ db.requests ∧ (r.status = "pending" ∨ r.status = "claimed")) ∧
    (renderQueue (get_active_requests db)).displayed =
      (get_active_requests db).take 15 ∧
    (renderQueue (get_active_requests db)).displayed.length ≤ 15 ∧
    (renderQueue (get_active_requests db)).total_plastanium =
      (((get_active_requests db).take 15).map (fun r => r.plastanium_cost)).sum ∧
    (renderQueue (get_active_requests db)).total_spice =
      (((get_active_requests db).take 15).map (fun r => r.spice_cost)).sum ∧
    ((renderQueue (get_active_requests db)).truncated_note = true ↔
      15 < (get_active_requests db).length) := by
  have hperm : List.Perm (get_active_requests db) (db.requests.filter isActive) :=
    List.perm_insertionSort _ _
  refine ⟨List.sorted_insertionSort byCreatedAt _, ?_, rfl, ?_, ?_, ?_, ?_⟩
  · intro r
    rw [hperm.mem_iff, List.mem_filter]
    simp [isActive]
  · show ((get_active_requests db).take 15).length ≤ 15
    rw [List.length_take]
    exact Nat.min_le_left _ _
  · show ((get_active_requests db).take 15).foldl
        (fun acc r => acc + r.plastanium_cost) 0 = _
    rw [foldl_add_eq_sum, Int.zero_add]
  · show ((get_active_requests db).take 15).foldl
        (fun acc r => acc + r.spice_cost) 0 = _
    rw [foldl_add_eq_sum, Int.zero_add]
  · exact decide_eq_true_iff

/-! ### C5 — quantity validation lives in the caller, not in create -/

/-- C5 counterexample: `create_request` itself performs no quantity
validation — quantity 0, outside 1..99, is accepted, a row is inserted
and the new id is returned, refuting "create rejects it with a validation
failure and creates no request". -/
theorem create_request_accepts_out_of_range :
    (create_request emptyDB 1 "u" "c" "Cat" "It" 0 2 3 10).1 = 1 ∧
    (create_request emptyDB 1 "u" "c" "Cat" "It" 0 2 3 10).2.requests.length = 1 ∧
    ∃ r ∈ (create_request emptyDB 1 "u" "c" "Cat" "It" 0 2 3 10).2.requests,
      r.quantity = 0 ∧ r.status = "pending" := by
  decide

/-- C5 amended: the 1..99 quantity check is enforced by the caller-side
submit pipeline, which on an out-of-range quantity reports a validation
failure and leaves the store unchanged, and on an in-range quantity creates
the request; `create_request` itself succeeds for EVERY quantity, inserting
a pending row with the frozen costs and returning the new id. -/
theorem create_validation_spec (db : DB) (uid : Nat) (un cn cat it : String)
    (qty pc sc : Int) (t : Nat) :
    (qty < 1 ∨ 99 < qty →
      request_modal_submit db uid un cn cat it qty pc sc t = (none, db)) ∧
    (1 ≤ qty → qty ≤ 99 →
      request_modal_submit db uid un cn cat it qty pc sc t =
        (some db.next_id, (create_request db uid un cn cat it qty pc sc t).2)) ∧
    (create_request db uid un cn cat it qty pc sc t).1 = db.next_id ∧
    (create_request db uid un cn cat it qty pc sc t).2.requests.length =
      db.requests.length + 1 ∧
    ∃ r ∈ (create_request db uid un cn cat it qty pc sc t).2.requests,
      r.id = db.next_id ∧ r.quantity = qty ∧ r.status = "pending" ∧
        r.plastanium_cost = pc * qty ∧ r.spice_cost = sc * qty := by
  refine ⟨?_, ?_, rfl, by simp [create_request], ?_⟩
  · intro h
    have hb : (decide (qty < 1) || decide (99 < qty)) = true := by
      rcases h with h | h
      · rw [decide_eq_true h]
        exact Bool.true_or _
      · rw [decide_eq_true h]
        exact Bool.or_true _
    unfold request_modal_submit
    rw [if_pos hb]
  · intro h1 h2
    have hb : (decide (qty < 1) || decide (99 < qty)) = false := by
      simp only [Bool.or_eq_false_iff, decide_eq_false_iff_not, not_lt]
      exact ⟨h1, h2⟩
    unfold request_modal_submit
    rw [if_neg (by rw [hb]; exact Bool.false_ne_true)]
    rfl
  · exact ⟨_, List.mem_append.mpr (Or.inr (List.mem_singleton.mpr rfl)),
      rfl, rfl, rfl, rfl, rfl⟩

/-- C5 witness: a quantity of 0 is rejected by the submit pipeline with no
state change, while a quantity of 2 is accepted and creates request 1. -/
theorem create_validation_spec_witness :
    request_modal_submit emptyDB 1 "u" "c" "Cat" "It" 0 2 3 10 = (none, emptyDB) ∧
    (request_modal_submit emptyDB 1 "u" "c" "Cat" "It" 2 2 3 10).1 = some 1 := by
  have h0 := create_validation_spec emptyDB 1 "u" "c" "Cat" "It" 0 2 3 10
  have h2 := create_validation_spec emptyDB 1 "u" "c" "Cat" "It" 2 2 3 10
  refine ⟨h0.1 (Or.inl (by decide)), ?_⟩
  rw [h2.2.1 (by decide) (by decide)]
  rfl

/-! ### C6 — crafter fields are retained after completion -/

/-- create → claim → complete, reaching a completed row. -/
def opsToCompleted : List Op :=
  [.create 1 "u" "c" "Cat" "It" 1 2 3 10, .claim 1 5 "alice" 20,
   .complete 1 5 30]

/-- The row the trace `opsToCompleted` produces. -/
def exCompletedRow : Request :=
  { id := 1, requester_id := 1, requester_name := "u", character_name := "c",
    category := "Cat", item_name := "It", quantity := 1, plastanium_cost := 2,
    spice_cost := 3, status := "completed", crafter_id := some 5,
    crafter_name := some "alice", created_at := 10, claimed_at := some 20,
    completed_at := some 30 }

/-- C6 counterexample: after create→claim→complete the reachable store holds
a row with `crafter_id` and `claimed_at` both set whose status is
`completed`, not `claimed` — so "status='claimed' iff crafter_id and
claimed_at are set" fails in a reachable state. -/
theorem status_claimed_iff_fails :
    ¬ ∀ r ∈ (run opsToCompleted).requests,
        ((r.crafter_id.isSome ∧ r.claimed_at.isSome) ↔ r.status = "claimed") := by
  decide

/-- C6 amended: in every reachable store, a request's `crafter_id` and
`claimed_at` are both set if and only if its status is `claimed` OR
`completed` (the fields are retained after completion); in particular the
claim's left-to-right direction — every claimed request has both fields
set — does hold. -/
theorem status_fields_invariant (ops : List Op) (r : Request)
    (hr : r ∈ (run ops).requests) :
    ((r.crafter_id.isSome ∧ r.claimed_at.isSome) ↔
      (r.status = "claimed" ∨ r.status = "completed")) ∧
    (r.status = "claimed" → r.crafter_id.isSome ∧ r.claimed_at.isSome) := by
  have h := ((inv_run ops).2 r hr).2
  unfold statusInv at h
  exact ⟨h, fun hs => h.mpr (Or.inl hs)⟩

/-- C6 witness: the amended invariant instantiated on the completed row of
the concrete trace. -/
theorem status_fields_invariant_witness :
    (exCompletedRow.crafter_id.isSome ∧ exCompletedRow.claimed_at.isSome) ↔
      (exCompletedRow.status = "claimed" ∨ exCompletedRow.status = "completed") :=
  (status_fields_invariant opsToCompleted exCompletedRow (by decide)).1

/-! ### C7 — completed and cancelled are terminal -/

/-- C7: a request that is `completed` or `cancelled` in any reachable store
is never changed by any further sequence of Ledger operations: the very row
survives verbatim and remains the unique row with its id, so its status
never changes again. -/
theorem terminal_states_frozen (ops₁ : List Op) (r : Request) (ops₂ : List Op)
    (hr : r ∈ (run ops₁).requests)
    (ht : r.status = "completed" ∨ r.status = "cancelled") :
    r ∈ (run (ops₁ ++ ops₂)).requests ∧
    ∀ r' ∈ (run (ops₁ ++ ops₂)).requests, r'.id = r.id → r' = r := by
  have h1 : Inv (run ops₁) := inv_run ops₁
  rw [show run (ops₁ ++ ops₂) = runFrom (run ops₁) ops₂ from
    runFrom_append emptyDB ops₁ ops₂]
  have hmem : r ∈ (runFrom (run ops₁) ops₂).requests :=
    terminal_runFrom h1 hr ht ops₂
  refine ⟨hmem, ?_⟩
  intro r' hr' hid
  exact uniqueRow (inv_runFrom h1 ops₂).1 hr' hmem hid

/-- C7 witness: the completed row of the concrete trace survives a
subsequent bulk clear untouched. -/
theorem terminal_states_frozen_witness :
    exCompletedRow ∈ (run (opsToCompleted ++ [Op.clearPending])).requests :=
  (terminal_states_frozen opsToCompleted exCompletedRow [Op.clearPending]
    (by decide) (by decide)).1

/-! ### C8 — queue_message_id is a plain update, not an upsert -/

/-- C8 counterexample: recording a queue message identifier for a community
with no settings row persists nothing — `set_queue_message_id` is a plain
UPDATE, so on the empty store it is a no-op and the subsequent read finds
no settings row, refuting "every CommunitySettings write has upsert
semantics". -/
theorem set_queue_message_id_not_upsert :
    set_queue_message_id emptyDB 1 42 = emptyDB ∧
    get_guild_settings (set_queue_message_id emptyDB 1 42) 1 = none := by
  decide

theorem upsertGuild_read {α : Type} (db : DB) (gid : Nat)
    (f : GuildSettings → GuildSettings) (mk : GuildSettings)
    (hf : ∀ g, (f g).guild_id = g.guild_id)
    (proj : GuildSettings → α) (v : α)
    (hfv : ∀ g, proj (f g) = v) (hmkv : proj mk = v)
    (hmk : (mk.guild_id == gid) = true) :
    (get_guild_settings (upsertGuild db gid f mk) gid).map proj = some v := by
  unfold upsertGuild get_guild_settings
  by_cases hex : 0 < (db.guild_settings.filter (fun g => g.guild_id == gid)).length
  · rw [if_pos hex]
    dsimp only
    rw [head_filter_map_key GuildSettings.guild_id gid f hf db.guild_settings]
    cases hl : db.guild_settings.filter (fun g => g.guild_id == gid) with
    | nil =>
      rw [hl] at hex
      simp at hex
    | cons x xs => simp [hfv]
  · rw [if_neg hex]
    dsimp only
    have hnil : db.guild_settings.filter (fun g => g.guild_id == gid) = [] := by
      rw [← List.length_eq_zero]
      exact Nat.eq_zero_of_not_pos hex
    rw [List.filter_append, hnil]
    simp [List.filter_cons, hmk, hmkv]

/-- C8 amended: the role/channel settings writes do have upsert semantics —
writing them for a community with no settings row creates the row and the
value is read back — but `set_queue_message_id` is a plain update: with no
existing settings row it changes nothing, and only when a row already
exists does it persist the identifier. -/
theorem guild_settings_write_spec (db : DB) (gid rid aid qid mid : Nat) :
    (get_guild_settings db gid = none → set_queue_message_id db gid mid = db) ∧
    ((get_guild_settings db gid).isSome →
      (get_guild_settings (set_queue_message_id db gid mid) gid).map
        GuildSettings.queue_message_id = some (some mid)) ∧
    ((get_guild_settings (set_crafter_role db gid rid) gid).map
      GuildSettings.crafter_role_id = some (some rid)) ∧
    ((get_guild_settings (set_announcement_channel db gid aid) gid).map
      GuildSettings.announcement_channel_id = some (some aid)) ∧
    ((get_guild_settings (set_queue_channel db gid qid) gid).map
      GuildSettings.queue_channel_id = some (some qid)) := by
  refine ⟨?_, ?_, ?_, ?_, ?_⟩
  · intro h
    have hnil : db.guild_settings.filter (fun g => g.guild_id == gid) = [] := by
      rwa [get_guild_settings, List.head?_eq_none_iff] at h
    have hall : ∀ g ∈ db.guild_settings,
        (GuildSettings.guild_id g == gid) = false := fun g hg =>
      Bool.eq_false_iff.mpr (List.filter_eq_nil_iff.mp hnil g hg)
    unfold set_queue_message_id
    rw [map_if_key_of_none GuildSettings.guild_id gid
      (fun g => { g with queue_message_id := some mid }) hall]
  · intro h
    unfold get_guild_settings set_queue_message_id
    rw [head_filter_map_key GuildSettings.guild_id gid
      (fun g => { g with queue_message_id := some mid }) (fun a => rfl)
      db.guild_settings]
    obtain ⟨g, hg⟩ := Option.isSome_iff_exists.mp h
    rw [get_guild_settings] at hg
    rw [hg]
    rfl
  · exact upsertGuild_read db gid
      (fun g => { g with crafter_role_id := some rid })
      { guild_id := gid, crafter_role_id := some rid,
        announcement_channel_id := none, queue_channel_id := none,
        queue_message_id := none }
      (fun g => rfl) GuildSettings.crafter_role_id (some rid) (fun g => rfl)
      rfl (by simp)
  · exact upsertGuild_read db gid
      (fun g => { g with announcement_channel_id := some aid })
      { guild_id := gid, crafter_role_id := none,
        announcement_channel_id := some aid, queue_channel_id := none,
        queue_message_id := none }
      (fun g => rfl) GuildSettings.announcement_channel_id (some aid)
      (fun g => rfl) rfl (by simp)
  · exact upsertGuild_read db gid
      (fun g => { g with queue_channel_id := some qid })
      { guild_id := gid, crafter_role_id := none,
        announcement_channel_id := none, queue_channel_id := some qid,
        queue_message_id := none }
      (fun g => rfl) GuildSettings.queue_channel_id (some qid) (fun g => rfl)
      rfl (by simp)

/-- C8 witness: on the empty store, the non-upsert behaviour of
`set_queue_message_id` and the upsert behaviour of `set_crafter_role` at a
concrete community id. -/
theorem guild_settings_write_spec_witness :
    set_queue_message_id emptyDB 3 42 = emptyDB ∧
    (get_guild_settings (set_crafter_role emptyDB 3 9) 3).map
      GuildSettings.crafter_role_id = some (some 9) ∧
    (get_guild_settings
        (set_queue_message_id (set_crafter_role emptyDB 3 9) 3 42) 3).map
      GuildSettings.queue_message_id = some (some 42) := by
  have h := guild_settings_write_spec emptyDB 3 9 1 1 42
  have h2 := guild_settings_write_spec (set_crafter_role emptyDB 3 9) 3 9 1 1 42
  exact ⟨h.1 (by decide), h.2.2.1, h2.2.1 (by decide)⟩

/-! ### C9 — the profile upsert is the caller's, not create's -/

/-- C9 counterexample: `create_request` alone never touches the UserProfile
table — after creating a request with character name "Alice" on the empty
store no profile exists for the requester, refuting "create also upserts
the UserProfile row". -/
theorem create_request_no_profile_upsert :
    (create_request emptyDB 1 "u" "Alice" "Cat" "It" 1 2 3 10).2.user_profiles
        = [] ∧
    get_character_name
      (create_request emptyDB 1 "u" "Alice" "Cat" "It" 1 2 3 10).2 1 = none := by
  decide

theorem get_set_character_name (db : DB) (uid : Nat) (cn : String) :
    get_character_name (set_character_name db uid cn) uid = some cn := by
  unfold set_character_name get_character_name
  by_cases hex : 0 < (db.user_profiles.filter (fun u => u.user_id == uid)).length
  · rw [if_pos hex]
    dsimp only
    rw [head_filter_map_key UserProfile.user_id uid
      (fun u => { u with character_name := cn }) (fun a => rfl) db.user_profiles]
    cases hl : db.user_profiles.filter (fun u => u.user_id == uid) with
    | nil =>
      rw [hl] at hex
      simp at hex
    | cons x xs => simp
  · rw [if_neg hex]
    dsimp only
    have hnil : db.user_profiles.filter (fun u => u.user_id == uid) = [] := by
      rw [← List.length_eq_zero]
      exact Nat.eq_zero_of_not_pos hex
    rw [List.filter_append, hnil]
    simp [List.filter_cons]

/-- C9 amended: `create_request` leaves the UserProfile table untouched; the
profile upsert is the separate `set_character_name` operation, which the
first-time submit pipeline performs before creating — so after that caller
pipeline (not after bare create) the stored profile name equals the
character name passed to create. -/
theorem profile_upsert_spec (db : DB) (uid : Nat) (un cn cat it : String)
    (qty pc sc : Int) (t : Nat) :
    (create_request db uid un cn cat it qty pc sc t).2.user_profiles =
      db.user_profiles ∧
    get_character_name (set_character_name db uid cn) uid = some cn ∧
    (1 ≤ qty → qty ≤ 99 →
      get_character_name
        (request_modal_first_submit db uid un cn cat it qty pc sc t).2 uid =
        some cn) := by
  refine ⟨rfl, get_set_character_name db uid cn, ?_⟩
  intro h1 h2
  have hb : (decide (qty < 1) || decide (99 < qty)) = false := by
    simp only [Bool.or_eq_false_iff, decide_eq_false_iff_not, not_lt]
    exact ⟨h1, h2⟩
  unfold request_modal_first_submit
  rw [if_neg (by rw [hb]; exact Bool.false_ne_true)]
  exact get_set_character_name db uid cn

/-- C9 witness: after the first-time submit pipeline with a valid quantity,
the stored profile name is the submitted character name. -/
theorem profile_upsert_spec_witness :
    get_character_name
      (request_modal_first_submit emptyDB 1 "u" "Alice" "Cat" "It" 2 2 3 10).2 1
      = some "Alice" :=
  (profile_upsert_spec emptyDB 1 "u" "Alice" "Cat" "It" 2 2 3 10).2.2
    (by decide) (by decide)

/-! ### C10 — the undocumented bulk clear -/

/-- C10: `clear_pending_requests` cancels every pending request regardless
of its requester (there is no ownership guard in its WHERE clause), leaves
every claimed, completed and cancelled request unchanged, returns the
number of requests it cancelled, and leaves no pending request behind. -/
theorem clear_pending_spec (db : DB) :
    (clear_pending_requests db).1 =
      (db.requests.filter (fun r => r.status == "pending")).length ∧
    (∀ r ∈ db.requests, r.status = "pending" →
      { r with status := "cancelled" } ∈ (clear_pending_requests db).2.requests) ∧
    (∀ r ∈ db.requests, r.status ≠ "pending" →
      r ∈ (clear_pending_requests db).2.requests) ∧
    (∀ r' ∈ (clear_pending_requests db).2.requests, r'.status ≠ "pending") ∧
    (clear_pending_requests db).2.requests.length = db.requests.length := by
  refine ⟨rfl, ?_, ?_, ?_, ?_⟩
  · intro r hr hst
    have hmem := mem_updWhere_of_mem (p := fun r => r.status == "pending")
      (f := fun r => { r with status := "cancelled" }) hr
    rw [if_pos (by simp [hst])] at hmem
    exact hmem
  · intro r hr hst
    exact mem_updWhere_self hr (by simp [hst])
  · intro r' hr'
    obtain ⟨q, hq, hq'⟩ := mem_updWhere.mp hr'
    by_cases hpq : (q.status == "pending") = true
    · simp only [hpq, if_true] at hq'
      subst hq'
      simp
    · rw [Bool.not_eq_true] at hpq
      simp only [hpq, Bool.false_eq_true, if_false] at hq'
      subst hq'
      simpa using hpq
  · show (updWhere _ _ db.requests).length = _
    simp [updWhere]

/-- C10 witness: clearing the concrete one-pending-request store cancels
that request. -/
theorem clear_pending_spec_witness :
    { exPendReq with status := "cancelled" } ∈
      (clear_pending_requests exPendDB).2.requests :=
  (clear_pending_spec exPendDB).2.1 exPendReq (by decide) (by decide)

end Requisition
